import Mathlib

/-!
# Whisperfish session store and session model

A shallow embedding of `session.go`: the `session` table operations
(`FetchSessionBySource`, `FetchSessionByGroupID`, `FetchSession`,
`FetchAllSessions`, `SaveSession`, `DeleteSession`, `MarkSessionRead`,
`MarkSessionSent`, `MarkSessionReceived`) and the in-memory `SessionModel`
(`Get`, `Add`, `Refresh`).

Modelling conventions.

* Go pointers to records become values; a function that writes through a
  pointer argument returns the updated record next to its result.
* `int64` and `int` are `Int`, `uint64` is `Nat`.  The only arithmetic of the
  source is the unread counter of `Refresh`, bounded by the slice length, and
  the rowid allocation of the engine, whose upper limit is modelled
  explicitly; nothing else can wrap.
* A Go `error` result is `Except DBError Unit`; `sql.ErrNoRows` is
  `DBError.ErrNoRows`, every other storage failure is `DBError.Storage`.
* The storage engine is SQLite reached through `database/sql`.  The two
  tables are lists of rows, the `session` table in rowid order (the order of a
  table scan).  Whether a statement fails is not decided by the program, so
  every call takes the outcome of the engine as an argument (`none`: the
  statement executes).  Column values are never NULL, as in every row
  `SaveSession` writes, and are read back as stored.  They are stored as
  given, except in the column declared `message string`: that type name
  gives the column NUMERIC affinity, so a text that reads as a number is
  stored as the number (`numericAffinity`); a row of the model holds in
  `message` the text the stored value is read back as.
* A run-time panic of Go is the result `none`.
-/

set_option linter.dupNamespace false

namespace Whisperfish

/-! ## Records -/

/-- Errors of the storage layer: `sql.ErrNoRows`, or any other failure. -/
inductive DBError where
  | ErrNoRows
  | Storage (code : Nat)
  deriving DecidableEq, Repr

/-- Modelled from the spec: the `Message` record of `message.go`, which is not
among the sources; the fields are those the data model lists and `Add` uses
(`SID` is the `sessionID` back-reference). -/
structure Message where
  Source : String
  Message : String
  Timestamp : Nat
  Sent : Bool
  Received : Bool
  HasAttachment : Bool
  SID : Int
  deriving DecidableEq, Repr

/-- The fields of `textsecure.Group` that `Add` reads.  `Hexid` is the group
identifier in its text form, the only form of it `Add` uses. -/
structure Group where
  Hexid : String
  Flags : Nat
  Name : String
  Members : List String
  deriving DecidableEq, Repr

/-- Value of `textsecure.GroupUpdateFlag`. -/
def GroupUpdateFlag : Nat := 1

/-- Value of `textsecure.GroupLeaveFlag`. -/
def GroupLeaveFlag : Nat := 2

/-- The `Session` struct. -/
structure Session where
  ID : Int
  Source : String
  Name : String
  IsGroup : Bool
  GroupID : String
  GroupName : String
  Members : String
  Message : String
  Section : String
  Timestamp : Nat
  Unread : Bool
  Sent : Bool
  Received : Bool
  HasAttachment : Bool
  messages : List Whisperfish.Message
  Length : Int
  deriving DecidableEq, Repr

/-- The zero value `Session{}`. -/
def Session.zero : Session :=
  ⟨0, "", "", false, "", "", "", "", "", 0, false, false, false, false, [], 0⟩

/-- The `SessionModel` struct. -/
structure SessionModel where
  sessions : List Session
  Length : Int
  Unread : Int
  deriving DecidableEq, Repr

/-- One row of the `session` table (`SessionSchema`). -/
structure SessionRow where
  id : Int
  source : String
  message : String
  timestamp : Nat
  sent : Bool
  received : Bool
  unread : Bool
  is_group : Bool
  group_members : String
  group_id : String
  group_name : String
  has_attachment : Bool
  deriving DecidableEq, Repr

/-- The database: the `session` table in rowid order and the `message` table. -/
structure DB where
  session : List SessionRow
  message : List Message
  deriving DecidableEq, Repr

/-! ## The storage engine -/

/-- Scanning a selected row into a fresh `Session{}` along the `db` tags: the
twelve columns are copied, the fields tagged `db:"-"` keep their zero value. -/
def scanSession (r : SessionRow) : Session :=
  { ID := r.id, Source := r.source, Name := "", IsGroup := r.is_group,
    GroupID := r.group_id, GroupName := r.group_name, Members := r.group_members,
    Message := r.message, Section := "", Timestamp := r.timestamp,
    Unread := r.unread, Sent := r.sent, Received := r.received,
    HasAttachment := r.has_attachment, messages := [], Length := 0 }

/-- The values a named statement binds for `session` under rowid `id`: the
eleven named parameters `:source`, `:message`, ... are bound to the fields of
the struct.  The engine stores them through `storeRow`. -/
def bindSession (session : Session) (id : Int) : SessionRow :=
  { id := id, source := session.Source, message := session.Message,
    timestamp := session.Timestamp, sent := session.Sent,
    received := session.Received, unread := session.Unread,
    is_group := session.IsGroup, group_members := session.Members,
    group_id := session.GroupID, group_name := session.GroupName,
    has_attachment := session.HasAttachment }

/-- The test `sqlite3Isspace`: space, tab, line feed, vertical tab, form feed,
carriage return. -/
def isSqlSpace (c : Char) : Bool := c.toNat == 32 || (9 ≤ c.toNat && c.toNat ≤ 13)

/-- Value of a run of decimal digits. -/
def digitsValue (ds : List Char) : Nat := ds.foldl (fun n c => 10 * n + (c.toNat - 48)) 0

/-- The three ways SQLite reads a text offered to a NUMERIC column. -/
inductive NumericForm where
  | text
  | integer (v : Int)
  | real
  deriving DecidableEq, Repr

/-- A list of characters without its leading sign, if it has one. -/
def skipSign (z : List Char) : List Char :=
  match z with
  | c :: rest => if c = '-' ∨ c = '+' then rest else z
  | [] => []

/-- The literal grammar of `sqlite3AtoF`: optional spaces, an optional sign,
digits, an optional point with digits, an optional exponent (`e` or `E`, an
optional sign, at least one digit), optional spaces, with at least one digit
before the exponent.  A text of that form without point and exponent is an
integer literal, with its value; with either it is a real literal; any other
text is not a number. -/
def classifyNumeric (s : String) : NumericForm :=
  let z0 := s.toList.dropWhile isSqlSpace
  let negative := z0.head? = some '-'
  let z1 := skipSign z0
  let intDigits := z1.takeWhile Char.isDigit
  let z2 := z1.dropWhile Char.isDigit
  let hasPoint := z2.head? = some '.'
  let fracDigits := if hasPoint then z2.tail.takeWhile Char.isDigit else []
  let z3 := if hasPoint then z2.tail.dropWhile Char.isDigit else z2
  let hasExp := z3.head? = some 'e' ∨ z3.head? = some 'E'
  let expDigits := if hasExp then (skipSign z3.tail).takeWhile Char.isDigit else []
  let z4 := if hasExp then (skipSign z3.tail).dropWhile Char.isDigit else z3
  let z5 := z4.dropWhile isSqlSpace
  if z5 = [] ∧ intDigits ++ fracDigits ≠ [] ∧ (hasExp → expDigits ≠ []) then
    if hasPoint ∨ hasExp then .real
    else .integer (if negative then -(digitsValue intDigits : Int) else digitsValue intDigits)
  else .text

/-- Largest rowid, and largest integer, SQLite can hold. -/
def maxInt64 : Int := 9223372036854775807

/-- What a text written to the column `message string` is read back as.  The
column has NUMERIC affinity: a text that is not a numeric literal is stored
as it is; an integer literal that fits 64 bits is stored as that INTEGER and
read back in decimal; any other numeric literal is stored as a REAL (or as
the INTEGER equal to it) through floating point, which is not modelled:
`realText` gives the text read back for it. -/
def numericAffinity (realText : String → String) (s : String) : String :=
  match classifyNumeric s with
  | .text => s
  | .real => realText s
  | .integer v => if -maxInt64 - 1 ≤ v ∧ v ≤ maxInt64 then toString v else realText s

/-- The row the engine stores for the bound values `row`: every column as
given but `message`, which goes through the affinity of its column. -/
def storeRow (realText : String → String) (row : SessionRow) : SessionRow :=
  { row with message := numericAffinity realText row.message }

/-- The call `db.Get(&session, "select ... from session as s where <cond>")`: a
storage failure, `sql.ErrNoRows` when no row satisfies the condition,
otherwise the first such row of the scan. -/
def DB.Get (db : DB) (cond : SessionRow → Bool) (fail : Option Nat) :
    Except DBError Session :=
  match fail with
  | some code => .error (.Storage code)
  | none =>
    match db.session.find? cond with
    | none => .error .ErrNoRows
    | some r => .ok (scanSession r)

/-- The call `db.Exec(stmt, ...)` for a statement that changes rows: a storage
failure leaves the tables as they are, otherwise the statement is applied. -/
def DB.Exec (db : DB) (stmt : DB → DB) (fail : Option Nat) : Except DBError Unit × DB :=
  match fail with
  | some code => (.error (.Storage code), db)
  | none => (.ok (), stmt db)

/-- The order of `order by s.timestamp desc`: `a` may stand before `b`. -/
def tsDesc (a b : SessionRow) : Prop := b.timestamp ≤ a.timestamp

instance : DecidableRel tsDesc := fun a b => inferInstanceAs (Decidable (b.timestamp ≤ a.timestamp))

instance : IsTotal SessionRow tsDesc := ⟨fun a b => Nat.le_total b.timestamp a.timestamp⟩

instance : IsTrans SessionRow tsDesc := ⟨fun _ _ _ hab hbc => Nat.le_trans hbc hab⟩

/-- The order of the table scan: ascending rowid. -/
def rowidLe (a b : SessionRow) : Prop := a.id ≤ b.id

instance : DecidableRel rowidLe := fun a b => inferInstanceAs (Decidable (a.id ≤ b.id))

/-- Largest rowid in use, `none` for an empty table. -/
def maxRowid : List SessionRow → Option Int
  | [] => none
  | r :: rest =>
    match maxRowid rest with
    | none => some r.id
    | some m => some (max r.id m)

/-- The rowid SQLite gives a row inserted without one: 1 in an empty table, one
more than the largest rowid in use otherwise; when that largest rowid is the
largest 64-bit integer the engine tries positive candidates at random (`rnd`
is its candidate) and fails with `SQLITE_FULL` (13) if it finds none unused. -/
def allocRowid (rows : List SessionRow) (rnd : Int) : Except DBError Int :=
  match maxRowid rows with
  | none => .ok 1
  | some m =>
    if m < maxInt64 then .ok (m + 1)
    else if 0 < rnd ∧ rnd ≤ maxInt64 ∧ rows.all (fun r => r.id != rnd) then .ok rnd
    else .error (.Storage 13)

/-- The statement `insert or replace into session (..., id) values (...)` for a
row with an explicit id: a row with that primary key is deleted, then the new
row is stored at its rowid. -/
def insertOrReplace (rows : List SessionRow) (row : SessionRow) : List SessionRow :=
  List.orderedInsert rowidLe row (rows.filter (fun r => r.id != row.id))

/-- Outcome of the engine during one `SaveSession`: whether `NamedExec` fails,
the candidate of the random rowid search, whether `res.LastInsertId()`
fails (`some v`: it returns `v` together with an error), and the text a
numeric literal written to the `message` column is read back as when it goes
through floating point (see `numericAffinity`). -/
structure SaveEnv where
  execFail : Option Nat
  rnd : Int
  lastIdFail : Option Int
  realText : String → String

/-- Outcome of the engine during one `Add`: the fetch, the session save and the
message save. -/
structure AddEnv where
  fetchFail : Option Nat
  save : SaveEnv
  msgFail : Option Nat

/-! ## `session.go` -/

/-- The function `FetchSessionBySource`: `where s.source = ?`. -/
def FetchSessionBySource (db : DB) (source : String) (fail : Option Nat) :
    Except DBError Session :=
  db.Get (fun r => r.source == source) fail

/-- The function `FetchSessionByGroupID`: `where s.group_id = ?`. -/
def FetchSessionByGroupID (db : DB) (groupID : String) (fail : Option Nat) :
    Except DBError Session :=
  db.Get (fun r => r.group_id == groupID) fail

/-- The function `FetchSession`: `where s.id = ?`. -/
def FetchSession (db : DB) (id : Int) (fail : Option Nat) : Except DBError Session :=
  db.Get (fun r => r.id == id) fail

/-- The function `FetchAllSessions`: every row, `order by s.timestamp desc`
(rows of equal timestamp stay in scan order). -/
def FetchAllSessions (db : DB) (fail : Option Nat) : Except DBError (List Session) :=
  match fail with
  | some code => .error (.Storage code)
  | none => .ok ((db.session.insertionSort tsDesc).map scanSession)

/-- The value `res.LastInsertId()` yields after a statement that wrote the row
`rowid`: that rowid, or `v` when the call fails. -/
def SaveEnv.lastInsertId (env : SaveEnv) (rowid : Int) : Int :=
  match env.lastIdFail with
  | none => rowid
  | some v => v

/-- The function `SaveSession`.  The column list holds `id` only when
`session.ID > 0`; the engine stores the bound values (`storeRow`);
`session.ID` is then assigned whatever `res.LastInsertId()` returns, before
its error is looked at, and that error is only logged. -/
def SaveSession (db : DB) (session : Session) (env : SaveEnv) :
    Except DBError Unit × Session × DB :=
  match env.execFail with
  | some code => (.error (.Storage code), session, db)
  | none =>
    if session.ID > 0 then
      let row := storeRow env.realText (bindSession session session.ID)
      (.ok (), { session with ID := env.lastInsertId session.ID },
        { db with session := insertOrReplace db.session row })
    else
      match allocRowid db.session env.rnd with
      | .error e => (.error e, session, db)
      | .ok id =>
        let row := storeRow env.realText (bindSession session id)
        (.ok (), { session with ID := env.lastInsertId id },
          { db with session := List.orderedInsert rowidLe row db.session })

/-- Modelled from the spec: `SaveMessage` of `message.go`, which is not among
the sources: "persist the message via the external message store", with an
error result.  The record is added to the `message` table. -/
def SaveMessage (db : DB) (message : Message) (fail : Option Nat) : Except DBError Unit × DB :=
  db.Exec (fun d => { d with message := d.message ++ [message] }) fail

/-- The function `DeleteSession`: `delete from session where id = ?`, then
`delete from message where session_id = ?`; the second statement is not
reached when the first fails. -/
def DeleteSession (db : DB) (id : Int) (fail1 fail2 : Option Nat) : Except DBError Unit × DB :=
  match db.Exec (fun d => { d with session := d.session.filter (fun r => r.id != id) }) fail1 with
  | (.error e, db1) => (.error e, db1)
  | (.ok (), db1) =>
    db1.Exec (fun d => { d with message := d.message.filter (fun m => m.SID != id) }) fail2

/-- The function `MarkSessionRead`: `update session set unread = 0 where id = ?`. -/
def MarkSessionRead (db : DB) (id : Int) (fail : Option Nat) : Except DBError Unit × DB :=
  db.Exec (fun d => { d with session := d.session.map (fun r =>
    if r.id = id then { r with unread := false } else r) }) fail

/-- The function `MarkSessionSent`:
`update session set timestamp = ?, message = ?, unread = 0, sent = 1 where id = ?`.
The text goes through the affinity of the `message` column; `realText` is
the engine's part of it (see `numericAffinity`). -/
def MarkSessionSent (db : DB) (id : Int) (msg : String) (ts : Nat)
    (realText : String → String) (fail : Option Nat) : Except DBError Unit × DB :=
  db.Exec (fun d => { d with session := d.session.map (fun r =>
    if r.id = id then
      { r with timestamp := ts, message := numericAffinity realText msg, unread := false,
               sent := true }
    else r) }) fail

/-- The function `MarkSessionReceived`: `update session set received = 1 where id = ?`
(the timestamp argument is not used). -/
def MarkSessionReceived (db : DB) (id : Int) (_ts : Nat) (fail : Option Nat) :
    Except DBError Unit × DB :=
  db.Exec (fun d => { d with session := d.session.map (fun r =>
    if r.id = id then { r with received := true } else r) }) fail

/-- The index expression `xs[i]` of Go on a slice: a run-time panic (`none`)
unless `0 <= i < len(xs)`. -/
def sliceIndex (xs : List Session) (i : Int) : Option Session :=
  if i < 0 then none else xs[i.toNat]?

/-- The method `SessionModel.Get`. -/
def SessionModel.Get (s : SessionModel) (i : Int) : Option Session :=
  if i = -1 ∨ i ≥ s.sessions.length then some Session.zero
  else sliceIndex s.sessions i

/-- The text `Add` leaves in `message.Message` (lines 89 to 93): the join or
leave notice for a group update or leave, the text as it is otherwise. -/
def overrideText (message : Message) (group : Option Group) : Message :=
  match group with
  | some g =>
    if g.Flags = GroupUpdateFlag then { message with Message := "Member joined group" }
    else if g.Flags = GroupLeaveFlag then { message with Message := "Member left group" }
    else message
  | none => message

/-- The merge of `Add` (lines 95 to 109) of the message and group into `sess`. -/
def mergeFields (sess : Session) (message : Message) (group : Option Group) (unread : Bool) :
    Session :=
  let sess1 := { sess with
    Message := message.Message, Timestamp := message.Timestamp, Unread := unread,
    Sent := message.Sent, Received := message.Received,
    HasAttachment := message.HasAttachment }
  match group with
  | some g =>
    { sess1 with Source := g.Hexid, GroupID := g.Hexid, GroupName := g.Name,
                 Members := String.intercalate "," g.Members, IsGroup := true }
  | none => { sess1 with Source := message.Source }

/-- The method `SessionModel.Add` (the receiver is neither read nor written).
The result carries the returned session or error, the caller's message as
the call leaves it (it is written through the pointer), and the database. -/
def SessionModel.Add (db : DB) (message : Message) (group : Option Group) (unread : Bool)
    (env : AddEnv) : Except DBError Session × Message × DB :=
  let fetched :=
    match group with
    | some g => FetchSessionByGroupID db g.Hexid env.fetchFail
    | none => FetchSessionBySource db message.Source env.fetchFail
  let resolved : Except DBError Session :=
    match fetched with
    | .ok sess => .ok sess
    | .error .ErrNoRows => .ok Session.zero
    | .error e => .error e
  match resolved with
  | .error e => (.error e, message, db)
  | .ok sess =>
    let message1 := overrideText message group
    let sess1 := mergeFields sess message1 group unread
    match SaveSession db sess1 env.save with
    | (.error e, _, db1) => (.error e, message1, db1)
    | (.ok (), sess2, db1) =>
      let message2 := { message1 with SID := sess2.ID }
      match SaveMessage db1 message2 env.msgFail with
      | (.error e, db2) => (.error e, message2, db2)
      | (.ok (), db2) => (.ok sess2, message2, db2)

/-- The loop of `SessionModel.Refresh` (lines 134 to 141) over the remaining
sessions, `unread` being `s.Unread` so far. -/
def refreshLoop (c : String → String) : List Session → Int → List Session × Int
  | [], unread => ([], unread)
  | sess :: rest, unread =>
    let sess1 := { sess with Name := c sess.Source }
    let unread1 := if sess1.Unread then unread + 1 else unread
    let (rest1, unread2) := refreshLoop c rest unread1
    (sess1 :: rest1, unread2)

/-- The method `SessionModel.Refresh`; `c` is `Contacts.Name`, a pure lookup.
On a fetch error the model keeps `Unread = 0` and the nil slice. -/
def SessionModel.Refresh (s : SessionModel) (db : DB) (c : String → String)
    (fail : Option Nat) : Except DBError Unit × SessionModel :=
  let s1 := { s with Unread := 0 }
  match FetchAllSessions db fail with
  | .error e => (.error e, { s1 with sessions := [] })
  | .ok sessions =>
    let (sessions1, unread) := refreshLoop c sessions s1.Unread
    (.ok (), { sessions := sessions1, Length := sessions1.length, Unread := unread })

/-! ## Predicates used in the statements -/

/-- Invariant of the `session` table: along the scan the rowids strictly
ascend (the primary key is unique) and are positive.  The empty table has it
and every operation of this file keeps it. -/
def DB.WF (db : DB) : Prop :=
  (db.session.map (fun r => r.id)).Sorted (fun a b => a < b) ∧ ∀ r ∈ db.session, 0 < r.id

instance (db : DB) : Decidable db.WF := inferInstanceAs (Decidable (_ ∧ _))

/-- Two calls of `Add` use the same merge key: both without a group and with
the same message source, or both with a group and with the same group id. -/
def SameMergeKey (message1 : Message) (group1 : Option Group) (message2 : Message)
    (group2 : Option Group) : Prop :=
  match group1, group2 with
  | none, none => message1.Source = message2.Source
  | some g1, some g2 => g1.Hexid = g2.Hexid
  | _, _ => False

/-- The condition of the fetch `Add` starts with: the group id of the group
when there is one, the source of the message otherwise. -/
def mergeKeyCond (message : Message) (group : Option Group) : SessionRow → Bool :=
  match group with
  | some g => fun r => r.group_id == g.Hexid
  | none => fun r => r.source == message.Source

/-! ## The affinity of the `message` column -/

theorem numericAffinity_of_text (realText : String → String) (s : String)
    (h : classifyNumeric s = .text) : numericAffinity realText s = s := by
  simp only [numericAffinity, h]

theorem storeRow_frame (realText : String → String) (row : SessionRow) :
    storeRow realText row = { row with message := numericAffinity realText row.message } := rfl

/-- Texts the engine keeps, texts it turns into integers, and a text it sends
through floating point. -/
theorem numericAffinity_samples (realText : String → String) :
    numericAffinity realText "hello" = "hello" ∧
    numericAffinity realText "Member joined group" = "Member joined group" ∧
    numericAffinity realText "12a" = "12a" ∧
    numericAffinity realText "0012" = "12" ∧
    numericAffinity realText " 12" = "12" ∧
    numericAffinity realText "-007" = "-7" ∧
    numericAffinity realText "1.50" = realText "1.50" :=
  ⟨rfl, rfl, rfl, rfl, rfl, rfl, rfl⟩

/-! ## Inversion lemmas -/

theorem SaveSession_ok_inv {db : DB} {session : Session} {env : SaveEnv}
    {session1 : Session} {db1 : DB}
    (h : SaveSession db session env = (.ok (), session1, db1)) :
    ∃ rowid,
      session1 = { session with ID := env.lastInsertId rowid } ∧
      db1.message = db.message ∧
      ((0 < session.ID ∧ rowid = session.ID ∧
          db1.session = insertOrReplace db.session (storeRow env.realText (bindSession session rowid))) ∨
       (¬ 0 < session.ID ∧ allocRowid db.session env.rnd = .ok rowid ∧
          db1.session = List.orderedInsert rowidLe (storeRow env.realText (bindSession session rowid)) db.session)) := by
  unfold SaveSession at h
  cases hE : env.execFail with
  | some code => simp [hE] at h
  | none =>
    simp only [hE] at h
    by_cases hid : session.ID > 0
    · simp only [hid, if_true, Prod.mk.injEq, true_and] at h
      refine ⟨session.ID, h.1.symm, ?_, Or.inl ⟨hid, rfl, ?_⟩⟩ <;> rw [← h.2]
    · simp only [hid, if_false] at h
      cases hA : allocRowid db.session env.rnd with
      | error e => simp [hA] at h
      | ok id =>
        simp only [hA, Prod.mk.injEq, true_and] at h
        refine ⟨id, h.1.symm, ?_, Or.inr ⟨hid, rfl, ?_⟩⟩ <;> rw [← h.2]

theorem Add_ok_inv {db : DB} {message : Message} {group : Option Group} {unread : Bool}
    {env : AddEnv} {sess : Session} {message1 : Message} {db1 : DB}
    (h : SessionModel.Add db message group unread env = (.ok sess, message1, db1)) :
    ∃ found dbs,
      ((match group with
        | some g => FetchSessionByGroupID db g.Hexid env.fetchFail
        | none => FetchSessionBySource db message.Source env.fetchFail) = .ok found ∨
       ((match group with
        | some g => FetchSessionByGroupID db g.Hexid env.fetchFail
        | none => FetchSessionBySource db message.Source env.fetchFail) = .error .ErrNoRows ∧
        found = Session.zero)) ∧
      SaveSession db (mergeFields found (overrideText message group) group unread) env.save
        = (.ok (), sess, dbs) ∧
      message1 = { overrideText message group with SID := sess.ID } ∧
      db1 = { dbs with message := dbs.message ++ [message1] } := by
  unfold SessionModel.Add at h
  generalize hf : (match group with
        | some g => FetchSessionByGroupID db g.Hexid env.fetchFail
        | none => FetchSessionBySource db message.Source env.fetchFail) = fetched at h ⊢
  have key : ∀ found : Session,
      (match SaveSession db (mergeFields found (overrideText message group) group unread) env.save with
        | (.error e, _, db1) => (Except.error e, overrideText message group, db1)
        | (.ok (), sess2, db1) =>
          match SaveMessage db1 { overrideText message group with SID := sess2.ID } env.msgFail with
          | (.error e, db2) => (.error e, { overrideText message group with SID := sess2.ID }, db2)
          | (.ok (), db2) => (.ok sess2, { overrideText message group with SID := sess2.ID }, db2))
        = (.ok sess, message1, db1) →
      ∃ dbs, SaveSession db (mergeFields found (overrideText message group) group unread) env.save
        = (.ok (), sess, dbs) ∧
      message1 = { overrideText message group with SID := sess.ID } ∧
      db1 = { dbs with message := dbs.message ++ [message1] } := by
    intro found hk
    rcases hS : SaveSession db (mergeFields found (overrideText message group) group unread)
      env.save with ⟨r, s2, d1⟩
    rw [hS] at hk
    cases r with
    | error e => simp at hk
    | ok u =>
      cases u
      simp only [SaveMessage, DB.Exec] at hk
      cases hM : env.msgFail with
      | some code => simp [hM] at hk
      | none =>
        simp only [hM, Prod.mk.injEq, Except.ok.injEq] at hk
        obtain ⟨h1, h2, h3⟩ := hk
        subst h1
        subst h2
        exact ⟨d1, rfl, rfl, h3.symm⟩
  cases fetched with
  | ok found =>
    obtain ⟨dbs, h1, h2, h3⟩ := key found h
    exact ⟨found, dbs, Or.inl rfl, h1, h2, h3⟩
  | error e =>
    cases e with
    | ErrNoRows =>
      obtain ⟨dbs, h1, h2, h3⟩ := key Session.zero h
      exact ⟨Session.zero, dbs, Or.inr ⟨rfl, rfl⟩, h1, h2, h3⟩
    | Storage code => simp at h

theorem Add_ok_session {db : DB} {message : Message} {group : Option Group} {unread : Bool}
    {env : AddEnv} {sess : Session} {message1 : Message} {db1 : DB}
    (h : SessionModel.Add db message group unread env = (.ok sess, message1, db1)) :
    ∃ found id, sess = { mergeFields found (overrideText message group) group unread with ID := id } := by
  obtain ⟨found, dbs, _, hs, _, _⟩ := Add_ok_inv h
  obtain ⟨rowid, h1, _, _⟩ := SaveSession_ok_inv hs
  exact ⟨found, _, h1⟩

theorem leaveFlag_ne_updateFlag : GroupLeaveFlag ≠ GroupUpdateFlag := by decide

theorem overrideText_frame (message : Message) (group : Option Group) :
    overrideText message group = { message with Message := (overrideText message group).Message } := by
  unfold overrideText
  cases group with
  | none => rfl
  | some g =>
    simp only
    split_ifs <;> rfl

theorem overrideText_update (message : Message) (g : Group) (hu : g.Flags = GroupUpdateFlag) :
    (overrideText message (some g)).Message = "Member joined group" := by
  simp [overrideText, hu]

theorem overrideText_leave (message : Message) (g : Group) (hl : g.Flags = GroupLeaveFlag) :
    (overrideText message (some g)).Message = "Member left group" := by
  simp [overrideText, hl, leaveFlag_ne_updateFlag]

theorem overrideText_none (message : Message) : overrideText message none = message := rfl

theorem overrideText_other (message : Message) (g : Group) (hu : g.Flags ≠ GroupUpdateFlag)
    (hl : g.Flags ≠ GroupLeaveFlag) : overrideText message (some g) = message := by
  simp [overrideText, hu, hl]

theorem mergeFields_copied (sess : Session) (message : Message) (group : Option Group)
    (unread : Bool) :
    (mergeFields sess message group unread).Message = message.Message ∧
    (mergeFields sess message group unread).Timestamp = message.Timestamp ∧
    (mergeFields sess message group unread).Unread = unread ∧
    (mergeFields sess message group unread).Sent = message.Sent ∧
    (mergeFields sess message group unread).Received = message.Received ∧
    (mergeFields sess message group unread).HasAttachment = message.HasAttachment := by
  cases group <;> simp [mergeFields]


theorem refreshLoop_eq (c : String → String) (l : List Session) (n : Int) :
    refreshLoop c l n =
      (l.map (fun sess => { sess with Name := c sess.Source }),
       n + (l.countP (fun sess => sess.Unread) : Nat)) := by
  induction l generalizing n with
  | nil => simp [refreshLoop]
  | cons a t ih =>
    simp only [refreshLoop, ih, List.map_cons, List.countP_cons]
    by_cases ha : a.Unread = true
    · simp [ha]; omega
    · simp [ha]


/-! ## The `session` table invariant -/

theorem maxRowid_none {rows : List SessionRow} (h : maxRowid rows = none) : rows = [] := by
  cases rows with
  | nil => rfl
  | cons a t =>
    unfold maxRowid at h
    split at h <;> simp at h

theorem maxRowid_mem {rows : List SessionRow} {m : Int} (h : maxRowid rows = some m) :
    ∃ r ∈ rows, r.id = m := by
  induction rows generalizing m with
  | nil => simp [maxRowid] at h
  | cons a t ih =>
    unfold maxRowid at h
    split at h
    · simp only [Option.some.injEq] at h
      exact ⟨a, List.mem_cons_self _ _, h⟩
    · rename_i m1 hm1
      simp only [Option.some.injEq] at h
      obtain ⟨r, hr, hrm⟩ := ih hm1
      rcases max_choice a.id m1 with hc | hc
      · exact ⟨a, List.mem_cons_self _ _, by rw [← h, hc]⟩
      · exact ⟨r, List.mem_cons_of_mem _ hr, by rw [← h, hc, hrm]⟩

theorem maxRowid_ge {rows : List SessionRow} {m : Int} (h : maxRowid rows = some m) :
    ∀ r ∈ rows, r.id ≤ m := by
  induction rows generalizing m with
  | nil => simp
  | cons a t ih =>
    unfold maxRowid at h
    intro r hr
    split at h
    · rename_i hnone
      simp only [Option.some.injEq] at h
      rw [maxRowid_none hnone] at hr
      simp only [List.mem_singleton] at hr
      rw [hr, h]
    · rename_i m1 hm1
      simp only [Option.some.injEq] at h
      rcases List.mem_cons.mp hr with rfl | hrt
      · rw [← h]; exact le_max_left _ _
      · rw [← h]; exact le_trans (ih hm1 r hrt) (le_max_right _ _)

theorem allocRowid_ok {rows : List SessionRow} {rnd id : Int}
    (hpos : ∀ r ∈ rows, 0 < r.id) (h : allocRowid rows rnd = .ok id) :
    0 < id ∧ ∀ r ∈ rows, r.id ≠ id := by
  unfold allocRowid at h
  split at h
  · simp only [Except.ok.injEq] at h
    rename_i hnone
    rw [maxRowid_none hnone]
    subst h
    simp
  · rename_i m hm
    split at h
    · simp only [Except.ok.injEq] at h
      subst h
      obtain ⟨r, hr, hrm⟩ := maxRowid_mem hm
      have := hpos r hr
      refine ⟨by omega, ?_⟩
      intro x hx
      have := maxRowid_ge hm x hx
      omega
    · split at h
      · rename_i hc
        simp only [Except.ok.injEq] at h
        subst h
        refine ⟨hc.1, ?_⟩
        intro x hx
        have := hc.2.2
        rw [List.all_eq_true] at this
        simpa using this x hx
      · simp at h

theorem orderedInsert_head {row : SessionRow} {rows : List SessionRow}
    (h : ∀ r ∈ rows, row.id ≤ r.id) : List.orderedInsert rowidLe row rows = row :: rows := by
  cases rows with
  | nil => rfl
  | cons a t => exact List.orderedInsert_of_le _ t (h a (List.mem_cons_self _ _))

theorem sorted_ids_orderedInsert {row : SessionRow} {rows : List SessionRow}
    (hs : (rows.map (fun r => r.id)).Sorted (fun a b => a < b))
    (hfresh : ∀ r ∈ rows, r.id ≠ row.id) :
    ((List.orderedInsert rowidLe row rows).map (fun r => r.id)).Sorted (fun a b => a < b) := by
  induction rows with
  | nil => simp
  | cons a t ih =>
    simp only [List.map_cons, List.sorted_cons, List.mem_map, forall_exists_index, and_imp,
      forall_apply_eq_imp_iff₂] at hs
    have ha : a.id ≠ row.id := hfresh a (List.mem_cons_self _ _)
    have ht : ∀ r ∈ t, r.id ≠ row.id := fun r hr => hfresh r (List.mem_cons_of_mem _ hr)
    by_cases hle : row.id ≤ a.id
    · rw [List.orderedInsert_of_le _ t (show rowidLe row a from hle)]
      simp only [List.map_cons, List.sorted_cons, List.mem_cons, List.mem_map,
        forall_eq_or_imp, forall_exists_index, and_imp, forall_apply_eq_imp_iff₂]
      refine ⟨⟨lt_of_le_of_ne hle (Ne.symm ha), ?_⟩, hs.1, hs.2⟩
      intro x hx
      exact lt_trans (lt_of_le_of_ne hle (Ne.symm ha)) (hs.1 x hx)
    · have hgt : a.id < row.id := by omega
      have : List.orderedInsert rowidLe row (a :: t) = a :: List.orderedInsert rowidLe row t := by
        simp [List.orderedInsert, rowidLe, hle]
      rw [this]
      simp only [List.map_cons, List.sorted_cons, List.mem_map, forall_exists_index, and_imp,
        forall_apply_eq_imp_iff₂]
      refine ⟨?_, ih hs.2 ht⟩
      intro x hx
      rcases (List.mem_orderedInsert rowidLe).mp hx with rfl | hxt
      · exact hgt
      · exact hs.1 x hxt

theorem insertOrReplace_fresh (row : SessionRow) {rows : List SessionRow}
    (hfresh : ∀ r ∈ rows, r.id ≠ row.id) :
    insertOrReplace rows row = List.orderedInsert rowidLe row rows := by
  unfold insertOrReplace
  rw [List.filter_eq_self.mpr]
  intro r hr
  simpa using hfresh r hr

theorem insertOrReplace_present (row : SessionRow) {rows : List SessionRow}
    (hs : (rows.map (fun r => r.id)).Sorted (fun a b => a < b))
    (hmem : ∃ r ∈ rows, r.id = row.id) :
    insertOrReplace rows row = rows.map (fun r => if r.id = row.id then row else r) := by
  induction rows with
  | nil => simp at hmem
  | cons a t ih =>
    simp only [List.map_cons, List.sorted_cons, List.mem_map, forall_exists_index, and_imp,
      forall_apply_eq_imp_iff₂] at hs
    by_cases ha : a.id = row.id
    · have ht : ∀ r ∈ t, r.id ≠ row.id := fun r hr => by
        have := hs.1 r hr
        omega
      have hfilter : (a :: t).filter (fun r => r.id != row.id) = t := by
        rw [List.filter_cons_of_neg (by simpa using ha), List.filter_eq_self.mpr]
        intro r hr
        simpa using ht r hr
      unfold insertOrReplace
      rw [hfilter, orderedInsert_head, List.map_cons, if_pos ha]
      · congr 1
        symm
        calc t.map (fun r => if r.id = row.id then row else r) = t.map id :=
              List.map_congr_left (fun r hr => by simp [ht r hr])
          _ = t := List.map_id t
      · intro r hr
        have := hs.1 r hr
        omega
    · obtain ⟨r, hr, hrid⟩ := hmem
      have hrt : r ∈ t := by
        rcases List.mem_cons.mp hr with rfl | h
        · exact absurd hrid ha
        · exact h
      have hlt : a.id < row.id := by
        have := hs.1 r hrt
        omega
      have ih1 := ih hs.2 ⟨r, hrt, hrid⟩
      unfold insertOrReplace at ih1 ⊢
      rw [List.filter_cons_of_pos (by simpa using ha)]
      have : ∀ l, List.orderedInsert rowidLe row (a :: l) = a :: List.orderedInsert rowidLe row l := by
        intro l
        have hle : ¬ row.id ≤ a.id := by omega
        simp [List.orderedInsert, rowidLe, hle]
      rw [this, ih1, List.map_cons, if_neg ha]

theorem find?_orderedInsert_new {cond : SessionRow → Bool} {row : SessionRow}
    {rows : List SessionRow} (hrow : cond row = true) (hnone : rows.find? cond = none) :
    (List.orderedInsert rowidLe row rows).find? cond = some row := by
  induction rows with
  | nil => simp [hrow]
  | cons a t ih =>
    rw [List.find?_eq_none] at hnone
    have ha : ¬ cond a = true := hnone a (List.mem_cons_self _ _)
    have ht : t.find? cond = none :=
      List.find?_eq_none.mpr (fun x hx => hnone x (List.mem_cons_of_mem _ hx))
    simp only [List.orderedInsert]
    split_ifs
    · exact List.find?_cons_of_pos _ hrow
    · rw [List.find?_cons_of_neg _ ha]
      exact ih ht

theorem find?_replace {cond : SessionRow → Bool} {row r : SessionRow} {rows : List SessionRow}
    (hrow : cond row = true) (hfound : rows.find? cond = some r) :
    (rows.map (fun x => if x.id = r.id then row else x)).find? cond = some row := by
  induction rows with
  | nil => simp at hfound
  | cons a t ih =>
    rw [List.map_cons]
    by_cases ha : cond a = true
    · rw [List.find?_cons_of_pos _ ha] at hfound
      simp only [Option.some.injEq] at hfound
      rw [if_pos (by rw [hfound])]
      exact List.find?_cons_of_pos _ hrow
    · rw [List.find?_cons_of_neg _ ha] at hfound
      by_cases hid : a.id = r.id
      · rw [if_pos hid]
        exact List.find?_cons_of_pos _ hrow
      · rw [if_neg hid, List.find?_cons_of_neg _ ha]
        exact ih hfound

theorem WF_orderedInsert {db db1 : DB} (row : SessionRow) (hwf : db.WF) (hpos : 0 < row.id)
    (hfresh : ∀ r ∈ db.session, r.id ≠ row.id)
    (h1 : db1.session = List.orderedInsert rowidLe row db.session) : db1.WF := by
  refine ⟨?_, ?_⟩
  · rw [h1]
    exact sorted_ids_orderedInsert hwf.1 hfresh
  · intro r hr
    rw [h1] at hr
    rcases (List.mem_orderedInsert rowidLe).mp hr with rfl | hrt
    · exact hpos
    · exact hwf.2 r hrt

theorem WF_replace {db db1 : DB} (row : SessionRow) (hwf : db.WF) (hpos : 0 < row.id)
    (h1 : db1.session = db.session.map (fun r => if r.id = row.id then row else r)) :
    db1.WF := by
  refine ⟨?_, ?_⟩
  · have : db1.session.map (fun r => r.id) = db.session.map (fun r => r.id) := by
      rw [h1, List.map_map]
      apply List.map_congr_left
      intro r _
      by_cases hr : r.id = row.id
      · simp [hr]
      · simp [hr]
    rw [this]
    exact hwf.1
  · intro r hr
    rw [h1] at hr
    obtain ⟨x, hx, rfl⟩ := List.mem_map.mp hr
    by_cases hxr : x.id = row.id
    · rw [if_pos hxr]; exact hpos
    · rw [if_neg hxr]; exact hwf.2 x hx

/-- What a successful `SaveSession` does to a well-formed table: it writes one
row, at a positive rowid, either in the place of the row that had this rowid
or as a new row. -/
theorem SaveSession_ok_table {db : DB} {session : Session} {env : SaveEnv}
    {session1 : Session} {db1 : DB} (hwf : db.WF)
    (h : SaveSession db session env = (.ok (), session1, db1)) :
    ∃ rowid, 0 < rowid ∧ session1 = { session with ID := env.lastInsertId rowid } ∧
      db1.message = db.message ∧ db1.WF ∧ (0 < session.ID → rowid = session.ID) ∧
      (((∃ r ∈ db.session, r.id = rowid) ∧ 0 < session.ID ∧
          db1.session = db.session.map
            (fun r => if r.id = rowid then storeRow env.realText (bindSession session rowid) else r)) ∨
       ((∀ r ∈ db.session, r.id ≠ rowid) ∧
          db1.session = List.orderedInsert rowidLe (storeRow env.realText (bindSession session rowid)) db.session)) := by
  obtain ⟨rowid, h1, h2, h3⟩ := SaveSession_ok_inv h
  rcases h3 with ⟨hid, hrow, htab⟩ | ⟨hid, halloc, htab⟩
  · have hpos : 0 < rowid := by rw [hrow]; exact hid
    by_cases hmem : ∃ r ∈ db.session, r.id = rowid
    · have hmap := insertOrReplace_present (storeRow env.realText (bindSession session rowid)) hwf.1 hmem
      rw [hmap] at htab
      exact ⟨rowid, hpos, h1, h2, WF_replace (storeRow env.realText (bindSession session rowid)) hwf hpos htab,
        fun _ => hrow, Or.inl ⟨hmem, hid, htab⟩⟩
    · have hfresh : ∀ r ∈ db.session, r.id ≠ rowid := fun r hr hrid => hmem ⟨r, hr, hrid⟩
      rw [insertOrReplace_fresh (storeRow env.realText (bindSession session rowid)) hfresh] at htab
      exact ⟨rowid, hpos, h1, h2,
        WF_orderedInsert (storeRow env.realText (bindSession session rowid)) hwf hpos hfresh htab,
        fun _ => hrow, Or.inr ⟨hfresh, htab⟩⟩
  · obtain ⟨hpos, hfresh⟩ := allocRowid_ok hwf.2 halloc
    exact ⟨rowid, hpos, h1, h2,
      WF_orderedInsert (storeRow env.realText (bindSession session rowid)) hwf hpos hfresh htab,
      fun h0 => absurd h0 hid, Or.inr ⟨hfresh, htab⟩⟩

theorem Get_ok_inv {db : DB} {cond : SessionRow → Bool} {fail : Option Nat} {sess : Session}
    (h : db.Get cond fail = .ok sess) :
    ∃ r, db.session.find? cond = some r ∧ sess = scanSession r := by
  unfold DB.Get at h
  cases fail with
  | some code => simp at h
  | none =>
    cases hf : db.session.find? cond with
    | none => simp [hf] at h
    | some r =>
      simp only [hf, Except.ok.injEq] at h
      exact ⟨r, rfl, h.symm⟩

theorem Get_noRows_inv {db : DB} {cond : SessionRow → Bool} {fail : Option Nat}
    (h : db.Get cond fail = .error .ErrNoRows) : db.session.find? cond = none := by
  unfold DB.Get at h
  cases fail with
  | some code => simp at h
  | none =>
    cases hf : db.session.find? cond with
    | none => rfl
    | some r => simp [hf] at h

theorem Add_fetch_eq (db : DB) (message : Message) (group : Option Group) (fail : Option Nat) :
    (match group with
      | some g => FetchSessionByGroupID db g.Hexid fail
      | none => FetchSessionBySource db message.Source fail)
      = db.Get (mergeKeyCond message group) fail := by
  cases group <;> rfl

theorem mergeFields_key (found : Session) (message : Message) (group : Option Group)
    (unread : Bool) (id : Int) (realText : String → String) :
    mergeKeyCond message group
      (storeRow realText
        (bindSession (mergeFields found (overrideText message group) group unread) id))
      = true := by
  cases group <;> simp [mergeKeyCond, mergeFields, bindSession, overrideText, storeRow]

theorem mergeFields_ID (found : Session) (message : Message) (group : Option Group)
    (unread : Bool) : (mergeFields found message group unread).ID = found.ID := by
  cases group <;> rfl

/-- The effect of a successful `Add` on a well-formed `session` table: the row
the call wrote is afterwards the first row of its merge key; it stands in the
place of the row the key matched before, or is a new row when none did. -/
theorem Add_ok_key {db : DB} {message : Message} {group : Option Group} {unread : Bool}
    {env : AddEnv} {sess : Session} {message1 : Message} {db1 : DB} (hwf : db.WF)
    (h : SessionModel.Add db message group unread env = (.ok sess, message1, db1)) :
    db1.WF ∧ ∃ row,
      db1.session.find? (mergeKeyCond message group) = some row ∧ 0 < row.id ∧
      sess.ID = env.save.lastInsertId row.id ∧
      row = storeRow env.save.realText (bindSession sess row.id) ∧
      ((∃ r, db.session.find? (mergeKeyCond message group) = some r ∧ row.id = r.id ∧
          db1.session = db.session.map (fun x => if x.id = r.id then row else x)) ∨
       (db.session.find? (mergeKeyCond message group) = none ∧
          (∀ r ∈ db.session, r.id ≠ row.id) ∧
          db1.session = List.orderedInsert rowidLe row db.session)) := by
  obtain ⟨found, dbs, hfetch, hs, _, hd⟩ := Add_ok_inv h
  rw [Add_fetch_eq] at hfetch
  obtain ⟨rowid, hpos, hsess, _, hwfs, hrowid, htab⟩ := SaveSession_ok_table hwf hs
  have hsession : db1.session = dbs.session := by rw [hd]
  have hwf1 : db1.WF := by
    unfold DB.WF at hwfs ⊢
    rw [hsession]
    exact hwfs
  have hkey := mergeFields_key found message group unread rowid env.save.realText
  have hbind : storeRow env.save.realText
        (bindSession (mergeFields found (overrideText message group) group unread) rowid)
      = storeRow env.save.realText (bindSession sess rowid) := by rw [hsess]; rfl
  have hID := mergeFields_ID found (overrideText message group) group unread
  refine ⟨hwf1, storeRow env.save.realText
      (bindSession (mergeFields found (overrideText message group) group unread) rowid),
    ?_, hpos, by rw [hsess]; rfl, hbind, ?_⟩
  · rw [hsession]
    rcases hfetch with hok | ⟨hno, hfz⟩
    · obtain ⟨r, hr, hfound⟩ := Get_ok_inv hok
      have hrpos : 0 < r.id := hwf.2 r (List.mem_of_find?_eq_some hr)
      have hfid : 0 < (mergeFields found (overrideText message group) group unread).ID := by
        rw [hID, hfound]; exact hrpos
      have hrow : rowid = r.id := by rw [hrowid hfid, hID, hfound]; rfl
      rcases htab with ⟨_, _, hmap⟩ | ⟨hfresh, _⟩
      · rw [hmap, hrow]
        exact find?_replace (by rw [← hrow]; exact hkey) hr
      · exact absurd hrow.symm (hfresh r (List.mem_of_find?_eq_some hr))
    · have hnone := Get_noRows_inv hno
      rcases htab with ⟨_, hfid, _⟩ | ⟨_, hins⟩
      · rw [hID, hfz] at hfid
        exact absurd hfid (by decide)
      · rw [hins]
        exact find?_orderedInsert_new hkey hnone
  · rw [hsession]
    rcases hfetch with hok | ⟨hno, hfz⟩
    · obtain ⟨r, hr, hfound⟩ := Get_ok_inv hok
      have hrpos : 0 < r.id := hwf.2 r (List.mem_of_find?_eq_some hr)
      have hfid : 0 < (mergeFields found (overrideText message group) group unread).ID := by
        rw [hID, hfound]; exact hrpos
      have hrow : rowid = r.id := by rw [hrowid hfid, hID, hfound]; rfl
      rcases htab with ⟨_, _, hmap⟩ | ⟨hfresh, _⟩
      · left
        refine ⟨r, hr, hrow, ?_⟩
        rw [hmap, hrow]
      · exact absurd hrow.symm (hfresh r (List.mem_of_find?_eq_some hr))
    · have hnone := Get_noRows_inv hno
      rcases htab with ⟨_, hfid, _⟩ | ⟨hfresh, hins⟩
      · rw [hID, hfz] at hfid
        exact absurd hfid (by decide)
      · right
        exact ⟨hnone, hfresh, hins⟩

/-! ## The invariant is kept by every operation -/

theorem WF_empty : (⟨[], []⟩ : DB).WF := by decide

theorem WF_of_session_eq {db db1 : DB} (hwf : db.WF) (h : db1.session = db.session) :
    db1.WF := by
  unfold DB.WF at hwf ⊢
  rw [h]
  exact hwf

theorem WF_filter {db db1 : DB} (p : SessionRow → Bool) (hwf : db.WF)
    (h : db1.session = db.session.filter p) : db1.WF := by
  refine ⟨?_, ?_⟩
  · rw [h]
    exact List.Pairwise.sublist ((List.filter_sublist db.session).map _) hwf.1
  · intro r hr
    rw [h] at hr
    exact hwf.2 r (List.mem_of_mem_filter hr)

theorem WF_update {db db1 : DB} (f : SessionRow → SessionRow) (hf : ∀ r, (f r).id = r.id)
    (hwf : db.WF) (h : db1.session = db.session.map f) : db1.WF := by
  refine ⟨?_, ?_⟩
  · have : db1.session.map (fun r => r.id) = db.session.map (fun r => r.id) := by
      rw [h, List.map_map]
      exact List.map_congr_left (fun r _ => hf r)
    rw [this]
    exact hwf.1
  · intro r hr
    rw [h] at hr
    obtain ⟨x, hx, rfl⟩ := List.mem_map.mp hr
    rw [hf x]
    exact hwf.2 x hx

theorem SaveSession_WF (db : DB) (session : Session) (env : SaveEnv) (hwf : db.WF) :
    (SaveSession db session env).2.2.WF := by
  rcases hres : SaveSession db session env with ⟨res, session1, db1⟩
  cases res with
  | ok u =>
    cases u
    obtain ⟨_, _, _, _, hwf1, _⟩ := SaveSession_ok_table hwf hres
    exact hwf1
  | error e =>
    have : db1 = db := by
      unfold SaveSession at hres
      split at hres
      · simp only [Prod.mk.injEq] at hres
        exact hres.2.2.symm
      · split at hres
        · simp at hres
        · split at hres
          · simp only [Prod.mk.injEq] at hres
            exact hres.2.2.symm
          · simp at hres
    rw [this]
    exact hwf

theorem SaveMessage_session (db : DB) (message : Message) (fail : Option Nat) :
    (SaveMessage db message fail).2.session = db.session := by
  unfold SaveMessage DB.Exec
  cases fail <;> rfl

theorem Add_WF (db : DB) (message : Message) (group : Option Group) (unread : Bool)
    (env : AddEnv) (hwf : db.WF) : (SessionModel.Add db message group unread env).2.2.WF := by
  have key : ∀ found : Session,
      (match SaveSession db (mergeFields found (overrideText message group) group unread)
          env.save with
        | (.error e, _, db1) => (Except.error e, overrideText message group, db1)
        | (.ok (), sess2, db1) =>
          match SaveMessage db1 { overrideText message group with SID := sess2.ID }
              env.msgFail with
          | (.error e, db2) => (.error e, { overrideText message group with SID := sess2.ID }, db2)
          | (.ok (), db2) =>
            (.ok sess2, { overrideText message group with SID := sess2.ID }, db2)).2.2.WF := by
    intro found
    have hS := SaveSession_WF db (mergeFields found (overrideText message group) group unread)
      env.save hwf
    rcases hres : SaveSession db (mergeFields found (overrideText message group) group unread)
      env.save with ⟨res, s2, d1⟩
    rw [hres] at hS
    cases res with
    | error e => exact hS
    | ok u =>
      cases u
      have hM := SaveMessage_session d1 { overrideText message group with SID := s2.ID }
        env.msgFail
      simp only
      rcases hm : SaveMessage d1 { overrideText message group with SID := s2.ID }
        env.msgFail with ⟨r2, d2⟩
      rw [hm] at hM
      cases r2 with
      | error e => exact WF_of_session_eq hS hM
      | ok u => cases u; exact WF_of_session_eq hS hM
  unfold SessionModel.Add
  rw [Add_fetch_eq]
  cases db.Get (mergeKeyCond message group) env.fetchFail with
  | ok found => exact key found
  | error e =>
    cases e with
    | ErrNoRows => exact key Session.zero
    | Storage code => exact hwf

/-- The invariant of the `session` table is kept by `SessionModel.Add`,
whether the call succeeds or fails and whatever the engine does. -/
theorem Add_keeps_invariant (db : DB) (message : Message) (group : Option Group)
    (unread : Bool) (env : AddEnv) (hwf : db.WF) :
    (SessionModel.Add db message group unread env).2.2.WF :=
  Add_WF db message group unread env hwf

theorem Add_keeps_invariant_witness :
    (SessionModel.Add ⟨[⟨3, "x", "old", 1, false, false, false, false, "", "", "", false⟩], []⟩
      ⟨"a", "hi", 5, false, false, false, 0⟩ none true ⟨none, ⟨none, 0, some 0, id⟩, some 7⟩).2.2.WF :=
  Add_keeps_invariant
    ⟨[⟨3, "x", "old", 1, false, false, false, false, "", "", "", false⟩], []⟩
    ⟨"a", "hi", 5, false, false, false, 0⟩ none true ⟨none, ⟨none, 0, some 0, id⟩, some 7⟩
    (by decide)

theorem DeleteSession_WF (db : DB) (id : Int) (fail1 fail2 : Option Nat) (hwf : db.WF) :
    (DeleteSession db id fail1 fail2).2.WF := by
  unfold DeleteSession DB.Exec
  cases fail1 with
  | some code => exact hwf
  | none =>
    have h1 : ({ db with session := db.session.filter (fun r => r.id != id) } : DB).WF :=
      WF_filter (fun r => r.id != id) hwf rfl
    cases fail2 with
    | some code => exact h1
    | none => exact WF_of_session_eq h1 rfl

theorem MarkSessionRead_WF (db : DB) (id : Int) (fail : Option Nat) (hwf : db.WF) :
    (MarkSessionRead db id fail).2.WF := by
  unfold MarkSessionRead DB.Exec
  cases fail with
  | some code => exact hwf
  | none =>
    exact WF_update (fun r => if r.id = id then { r with unread := false } else r)
      (fun r => by by_cases h : r.id = id <;> simp [h]) hwf rfl

theorem MarkSessionSent_WF (db : DB) (id : Int) (msg : String) (ts : Nat)
    (realText : String → String) (fail : Option Nat)
    (hwf : db.WF) : (MarkSessionSent db id msg ts realText fail).2.WF := by
  unfold MarkSessionSent DB.Exec
  cases fail with
  | some code => exact hwf
  | none =>
    exact WF_update
      (fun r => if r.id = id then
        { r with timestamp := ts, message := numericAffinity realText msg, unread := false,
                 sent := true } else r)
      (fun r => by by_cases h : r.id = id <;> simp [h]) hwf rfl

theorem MarkSessionReceived_WF (db : DB) (id : Int) (ts : Nat) (fail : Option Nat)
    (hwf : db.WF) : (MarkSessionReceived db id ts fail).2.WF := by
  unfold MarkSessionReceived DB.Exec
  cases fail with
  | some code => exact hwf
  | none =>
    exact WF_update (fun r => if r.id = id then { r with received := true } else r)
      (fun r => by by_cases h : r.id = id <;> simp [h]) hwf rfl

/-! ## Claims -/

/-- C3: after a successful `SessionModel.Add` the returned session carries the
message's timestamp, sent, received and hasAttachment and the `unread`
argument, and its text is the join notice for a group update, the leave
notice for a group leave, and the message's own text otherwise, whatever the
matched session held before. -/
theorem Add_last_write_wins (db : DB) (message : Message) (group : Option Group)
    (unread : Bool) (env : AddEnv) (sess : Session) (message1 : Message) (db1 : DB)
    (h : SessionModel.Add db message group unread env = (.ok sess, message1, db1)) :
    sess.Timestamp = message.Timestamp ∧ sess.Unread = unread ∧ sess.Sent = message.Sent ∧
    sess.Received = message.Received ∧ sess.HasAttachment = message.HasAttachment ∧
    (∀ g, group = some g → g.Flags = GroupUpdateFlag → sess.Message = "Member joined group") ∧
    (∀ g, group = some g → g.Flags = GroupLeaveFlag → sess.Message = "Member left group") ∧
    (group = none → sess.Message = message.Message) ∧
    (∀ g, group = some g → g.Flags ≠ GroupUpdateFlag → g.Flags ≠ GroupLeaveFlag →
      sess.Message = message.Message) := by
  obtain ⟨found, id, rfl⟩ := Add_ok_session h
  obtain ⟨h1, h2, h3, h4, h5, h6⟩ :=
    mergeFields_copied found (overrideText message group) group unread
  have hf := overrideText_frame message group
  refine ⟨?_, h3, ?_, ?_, ?_, ?_, ?_, ?_, ?_⟩
  · show (mergeFields found (overrideText message group) group unread).Timestamp = _
    rw [h2, hf]
  · show (mergeFields found (overrideText message group) group unread).Sent = _
    rw [h4, hf]
  · show (mergeFields found (overrideText message group) group unread).Received = _
    rw [h5, hf]
  · show (mergeFields found (overrideText message group) group unread).HasAttachment = _
    rw [h6, hf]
  · intro g hg hu
    show (mergeFields found (overrideText message group) group unread).Message = _
    rw [h1, hg, overrideText_update message g hu]
  · intro g hg hl
    show (mergeFields found (overrideText message group) group unread).Message = _
    rw [h1, hg, overrideText_leave message g hl]
  · intro hg
    show (mergeFields found (overrideText message group) group unread).Message = _
    rw [h1, hg, overrideText_none]
  · intro g hg hu hl
    show (mergeFields found (overrideText message group) group unread).Message = _
    rw [h1, hg, overrideText_other message g hu hl]


theorem Add_last_write_wins_witness :
    ∃ sess message1 db1,
      SessionModel.Add
        ⟨[⟨4, "g1", "old", 9, true, true, false, true, "a", "g1", "G", true⟩], []⟩
        ⟨"a", "hi", 5, false, true, false, 0⟩ (some ⟨"g1", 2, "G", ["a", "b"]⟩) true
        ⟨none, ⟨none, 0, none, id⟩, none⟩ = (.ok sess, message1, db1) ∧
      sess.Timestamp = 5 ∧ sess.Unread = true ∧ sess.Sent = false ∧ sess.Received = true ∧
      sess.HasAttachment = false ∧ sess.Message = "Member left group" :=
  have h := Add_last_write_wins
    ⟨[⟨4, "g1", "old", 9, true, true, false, true, "a", "g1", "G", true⟩], []⟩
    ⟨"a", "hi", 5, false, true, false, 0⟩ (some ⟨"g1", 2, "G", ["a", "b"]⟩) true
    ⟨none, ⟨none, 0, none, id⟩, none⟩ _ _ _ rfl
  ⟨_, _, _, rfl, h.1, h.2.1, h.2.2.1, h.2.2.2.1, h.2.2.2.2.1,
    h.2.2.2.2.2.2.1 _ rfl rfl⟩

/-- C4: a successful `SessionModel.Add` with a group whose flag is the group
update (member joined) flag returns a session with `IsGroup = true`, `GroupID`
and `Source` equal to the group's id, `GroupName` equal to the group's name,
`Members` the member list joined with "," and `Message` equal to
"Member joined group", whatever the text of the message was. -/
theorem Add_group_update (db : DB) (message : Message) (g : Group) (unread : Bool)
    (env : AddEnv) (sess : Session) (message1 : Message) (db1 : DB)
    (hflag : g.Flags = GroupUpdateFlag)
    (h : SessionModel.Add db message (some g) unread env = (.ok sess, message1, db1)) :
    sess.IsGroup = true ∧ sess.GroupID = g.Hexid ∧ sess.Source = g.Hexid ∧
    sess.GroupName = g.Name ∧ sess.Members = String.intercalate "," g.Members ∧
    sess.Message = "Member joined group" := by
  obtain ⟨found, id, rfl⟩ := Add_ok_session h
  refine ⟨rfl, rfl, rfl, rfl, rfl, ?_⟩
  show (overrideText message (some g)).Message = _
  exact overrideText_update message g hflag

theorem Add_group_update_witness :
    ∃ sess message1 db1,
      SessionModel.Add ⟨[⟨1, "a", "old", 9, false, false, false, false, "", "", "", false⟩], []⟩
        ⟨"a", "original text", 5, false, true, false, 0⟩ (some ⟨"g1", 1, "G", ["a", "b"]⟩) true
        ⟨none, ⟨none, 0, none, id⟩, none⟩ = (.ok sess, message1, db1) ∧
      sess.IsGroup = true ∧ sess.GroupID = "g1" ∧ sess.Source = "g1" ∧ sess.GroupName = "G" ∧
      sess.Members = "a,b" ∧ sess.Message = "Member joined group" :=
  ⟨_, _, _, rfl, Add_group_update
    ⟨[⟨1, "a", "old", 9, false, false, false, false, "", "", "", false⟩], []⟩
    ⟨"a", "original text", 5, false, true, false, 0⟩ ⟨"g1", 1, "G", ["a", "b"]⟩ true
    ⟨none, ⟨none, 0, none, id⟩, none⟩ _ _ _ rfl rfl⟩

/-- C5, as stated, fails: added with a group update, the message "hi" reaches
the message store, and is left with the caller, with the text
"Member joined group". -/
theorem Add_stored_text_counterexample :
    ∃ sess message1 db1,
      SessionModel.Add ⟨[], []⟩ ⟨"a", "hi", 5, false, true, false, 0⟩
        (some ⟨"g1", 1, "G", ["a", "b"]⟩) true ⟨none, ⟨none, 0, none, id⟩, none⟩
        = (.ok sess, message1, db1) ∧
      db1.message = [⟨"a", "Member joined group", 5, false, true, false, 1⟩] ∧
      message1.Message = "Member joined group" ∧ message1.Message ≠ "hi" :=
  ⟨_, _, _, rfl, rfl, rfl, by decide⟩

/-- C5, amended: in a successful `SessionModel.Add` with a group whose flag is
member joined or member left, the notice replaces the text of the message
itself: the caller's message after the call is the input message with the
notice as text and the session's id as `SID`, that record is the one added
to the message store, and the session preview is the same notice. -/
theorem Add_override_reaches_message (db : DB) (message : Message) (g : Group)
    (unread : Bool) (env : AddEnv) (sess : Session) (message1 : Message) (db1 : DB)
    (hflag : g.Flags = GroupUpdateFlag ∨ g.Flags = GroupLeaveFlag)
    (h : SessionModel.Add db message (some g) unread env = (.ok sess, message1, db1)) :
    message1 = { message with
      Message := if g.Flags = GroupUpdateFlag then "Member joined group" else "Member left group",
      SID := sess.ID } ∧
    db1.message = db.message ++ [message1] ∧
    sess.Message = message1.Message := by
  obtain ⟨found, dbs, _, hs, hm, hd⟩ := Add_ok_inv h
  obtain ⟨rowid, h1, h2, _⟩ := SaveSession_ok_inv hs
  have hf := overrideText_frame message (some g)
  have htext : (overrideText message (some g)).Message =
      if g.Flags = GroupUpdateFlag then "Member joined group" else "Member left group" := by
    rcases hflag with hu | hl
    · rw [overrideText_update message g hu, if_pos hu]
    · rw [overrideText_leave message g hl, if_neg (by rw [hl]; exact leaveFlag_ne_updateFlag)]
  refine ⟨?_, ?_, ?_⟩
  · rw [hm, hf, htext]
  · rw [hd, h2]
  · rw [hm, h1]
    exact (mergeFields_copied found (overrideText message (some g)) (some g) unread).1

theorem Add_override_reaches_message_witness :
    ∃ sess message1 db1,
      SessionModel.Add ⟨[], [⟨"b", "earlier", 1, true, false, false, 7⟩]⟩
        ⟨"a", "hi", 5, false, true, false, 0⟩
        (some ⟨"g1", 2, "G", ["a", "b"]⟩) true ⟨none, ⟨none, 0, none, id⟩, none⟩
        = (.ok sess, message1, db1) ∧
      message1 = ⟨"a", "Member left group", 5, false, true, false, sess.ID⟩ ∧
      db1.message = [⟨"b", "earlier", 1, true, false, false, 7⟩] ++ [message1] ∧
      sess.Message = message1.Message :=
  ⟨_, _, _, rfl, Add_override_reaches_message
    ⟨[], [⟨"b", "earlier", 1, true, false, false, 7⟩]⟩ ⟨"a", "hi", 5, false, true, false, 0⟩
    ⟨"g1", 2, "G", ["a", "b"]⟩ true ⟨none, ⟨none, 0, none, id⟩, none⟩ _ _ _ (Or.inr rfl) rfl⟩
/-- C6: a successful `SessionModel.Refresh` on a store with M session rows, N
of them unread, leaves `Length = M` and `Unread = N` whatever they were
before, and a cached list that holds exactly the stored rows (each with the
name the contacts give its source) in non-increasing timestamp order. -/
theorem Refresh_reloads (s : SessionModel) (db : DB) (c : String → String)
    (fail : Option Nat) (s1 : SessionModel)
    (h : s.Refresh db c fail = (.ok (), s1)) :
    s1.Length = (db.session.length : Int) ∧
    s1.Unread = (db.session.countP (fun r => r.unread) : Nat) ∧
    (s1.sessions.map (fun x => bindSession x x.ID)).Perm db.session ∧
    s1.sessions.Sorted (fun a b => b.Timestamp ≤ a.Timestamp) ∧
    ∀ x ∈ s1.sessions, x.Name = c x.Source := by
  unfold SessionModel.Refresh FetchAllSessions at h
  cases fail with
  | some code => simp at h
  | none =>
    simp only [refreshLoop_eq, Prod.mk.injEq, true_and] at h
    subst h
    have hperm := List.perm_insertionSort tsDesc db.session
    have hsorted := List.sorted_insertionSort tsDesc db.session
    refine ⟨?_, ?_, ?_, ?_, ?_⟩
    · simp [hperm.length_eq]
    · simp only [zero_add, List.countP_map, Nat.cast_inj]
      exact hperm.countP_eq _
    · simp only [List.map_map]
      have : ((fun x : Session => bindSession x x.ID) ∘
          (fun sess : Session => { sess with Name := c sess.Source }) ∘ scanSession) = id := by
        funext r; rfl
      rw [this, List.map_id]
      exact hperm
    · simp only [List.map_map, List.Sorted, List.pairwise_map]
      exact hsorted
    · intro x hx
      simp only [List.map_map, List.mem_map] at hx
      obtain ⟨r, _, rfl⟩ := hx
      rfl

theorem Refresh_reloads_witness :
    ∃ s1, SessionModel.Refresh ⟨[], 7, 9⟩
        ⟨[⟨1, "a", "x", 5, false, false, true, false, "", "", "", false⟩,
          ⟨2, "b", "y", 8, false, false, false, false, "", "", "", false⟩,
          ⟨3, "c", "z", 6, false, false, true, false, "", "", "", false⟩], []⟩
        (fun src => src ++ "!") none = (.ok (), s1) ∧
      s1.Length = 3 ∧ s1.Unread = 2 ∧ s1.sessions.map (fun x => x.ID) = [2, 3, 1] :=
  have h := Refresh_reloads ⟨[], 7, 9⟩
    ⟨[⟨1, "a", "x", 5, false, false, true, false, "", "", "", false⟩,
      ⟨2, "b", "y", 8, false, false, false, false, "", "", "", false⟩,
      ⟨3, "c", "z", 6, false, false, true, false, "", "", "", false⟩], []⟩
    (fun src => src ++ "!") none _ rfl
  ⟨_, rfl, h.1, h.2.1, rfl⟩

/-- C7: after a successful `DeleteSession db id` no session row has that id
and no message row has that `session_id`, the two tables are otherwise as
before (they are the old tables without those rows), and `FetchSession` for
the id then finds no row: it returns `sql.ErrNoRows`, and under a storage
failure an error, never a session. -/
theorem DeleteSession_cascades (db : DB) (id : Int) (fail1 fail2 : Option Nat) (db1 : DB)
    (h : DeleteSession db id fail1 fail2 = (.ok (), db1)) :
    (∀ r ∈ db1.session, r.id ≠ id) ∧ (∀ m ∈ db1.message, m.SID ≠ id) ∧
    db1.session = db.session.filter (fun r => r.id != id) ∧
    db1.message = db.message.filter (fun m => m.SID != id) ∧
    FetchSession db1 id none = .error .ErrNoRows ∧
    ∀ fail sess, FetchSession db1 id fail ≠ .ok sess := by
  unfold DeleteSession DB.Exec at h
  cases fail1 with
  | some code => simp at h
  | none =>
    cases fail2 with
    | some code => simp at h
    | none =>
      simp only [Prod.mk.injEq, true_and] at h
      subst h
      have hnone : (db.session.filter (fun r => r.id != id)).find? (fun r => r.id == id) = none := by
        rw [List.find?_eq_none]
        intro r hr
        simp only [List.mem_filter, bne_iff_ne, ne_eq] at hr
        simpa using hr.2
      refine ⟨?_, ?_, rfl, rfl, ?_, ?_⟩
      · intro r hr
        simp only [List.mem_filter, bne_iff_ne, ne_eq] at hr
        exact hr.2
      · intro m hm
        simp only [List.mem_filter, bne_iff_ne, ne_eq] at hm
        exact hm.2
      · simp only [FetchSession, DB.Get, hnone]
      · intro fail sess
        cases fail with
        | some code => simp [FetchSession, DB.Get]
        | none => simp only [FetchSession, DB.Get, hnone]; simp

theorem DeleteSession_cascades_witness :
    ∃ db1, DeleteSession
        ⟨[⟨1, "a", "x", 5, false, false, true, false, "", "", "", false⟩,
          ⟨2, "b", "y", 8, false, false, false, false, "", "", "", false⟩],
         [⟨"a", "x", 5, false, false, false, 1⟩, ⟨"b", "y", 8, false, false, false, 2⟩,
          ⟨"a", "w", 4, false, false, false, 1⟩]⟩ 1 none none = (.ok (), db1) ∧
      db1 = ⟨[⟨2, "b", "y", 8, false, false, false, false, "", "", "", false⟩],
             [⟨"b", "y", 8, false, false, false, 2⟩]⟩ ∧
      FetchSession db1 1 none = .error .ErrNoRows :=
  ⟨_, rfl, rfl, (DeleteSession_cascades
    ⟨[⟨1, "a", "x", 5, false, false, true, false, "", "", "", false⟩,
      ⟨2, "b", "y", 8, false, false, false, false, "", "", "", false⟩],
     [⟨"a", "x", 5, false, false, false, 1⟩, ⟨"b", "y", 8, false, false, false, 2⟩,
      ⟨"a", "w", 4, false, false, false, 1⟩]⟩ 1 none none _ rfl).2.2.2.2.1⟩

/-- C8 fails for a text that reads as a number: the column is declared
`message string`, which gives it NUMERIC affinity, so a successful
`MarkSessionSent db 1 "0012" 1000` stores the integer 12 and the row reads
back `message = "12"`, not the text. -/
theorem MarkSessionSent_numeric_text (realText : String → String) :
    MarkSessionSent
      ⟨[⟨1, "a", "x", 5, false, true, true, false, "", "", "", true⟩,
        ⟨2, "b", "y", 8, false, false, true, false, "", "", "", false⟩], []⟩
      1 "0012" 1000 realText none
    = (.ok (),
       ⟨[⟨1, "a", "12", 1000, true, true, false, false, "", "", "", true⟩,
         ⟨2, "b", "y", 8, false, false, true, false, "", "", "", false⟩], []⟩) := rfl

/-- What `MarkSessionSent` does when it succeeds: it leaves the `message`
table alone and changes the `session` table row by row.  A row with that id
gets `timestamp = ts`, `unread = false`, `sent = true` and, as `message`, what
the NUMERIC column reads back for `msg` (`msg` itself when it is not a
numeric literal); it keeps its id, source, is_group, group_id, group_name,
group_members, received and has_attachment.  Every other row is unchanged. -/
theorem MarkSessionSent_frame (db : DB) (id : Int) (msg : String) (ts : Nat)
    (realText : String → String) (fail : Option Nat) (db1 : DB)
    (h : MarkSessionSent db id msg ts realText fail = (.ok (), db1)) :
    db1.message = db.message ∧
    List.Forall₂ (fun r r1 =>
      (r.id = id → r1.message = numericAffinity realText msg ∧
        (classifyNumeric msg = .text → r1.message = msg) ∧
        r1.timestamp = ts ∧ r1.unread = false ∧ r1.sent = true ∧
        r1.id = r.id ∧ r1.source = r.source ∧ r1.is_group = r.is_group ∧
        r1.group_id = r.group_id ∧ r1.group_name = r.group_name ∧
        r1.group_members = r.group_members ∧ r1.received = r.received ∧
        r1.has_attachment = r.has_attachment) ∧
      (r.id ≠ id → r1 = r)) db.session db1.session := by
  unfold MarkSessionSent DB.Exec at h
  cases fail with
  | some code => simp at h
  | none =>
    simp only [Prod.mk.injEq, true_and] at h
    subst h
    refine ⟨rfl, ?_⟩
    simp only
    generalize db.session = rows
    induction rows with
    | nil => exact List.Forall₂.nil
    | cons a t ih =>
      rw [List.map_cons]
      refine List.Forall₂.cons ⟨?_, ?_⟩ ih
      · intro ha
        simp only [ha, if_true, true_and, and_true]
        intro htext
        simp only [numericAffinity, htext]
      · intro ha; simp [ha]

theorem MarkSessionSent_frame_witness :
    ∃ db1, MarkSessionSent
        ⟨[⟨1, "a", "x", 5, false, true, true, false, "", "", "", true⟩,
          ⟨2, "b", "y", 8, false, false, true, false, "", "", "", false⟩], []⟩
        1 "hello" 1000 id none = (.ok (), db1) ∧
      db1.message = [] ∧
      db1.session = [⟨1, "a", "hello", 1000, true, true, false, false, "", "", "", true⟩,
          ⟨2, "b", "y", 8, false, false, true, false, "", "", "", false⟩] :=
  ⟨_, rfl, (MarkSessionSent_frame
    ⟨[⟨1, "a", "x", 5, false, true, true, false, "", "", "", true⟩,
      ⟨2, "b", "y", 8, false, false, true, false, "", "", "", false⟩], []⟩
    1 "hello" 1000 id none _ rfl).1, rfl⟩

/-- C9 fails at index -2: `Get` guards only the sentinel -1 and the indices
from `len(s.sessions)` on, so the index expression is reached and panics. -/
theorem Get_panics_below_sentinel :
    SessionModel.Get
      ⟨[⟨1, "a", "", false, "", "", "", "hi", "", 5, false, false, false, false, [], 0⟩], 1, 0⟩
      (-2) = none := rfl

/-- What `SessionModel.Get` does at every index: the zero session for -1 and
from `len(s.sessions)` on, the cached session in range, a panic below -1. -/
theorem Get_cases (s : SessionModel) (i : Int) :
    ((i = -1 ∨ (s.sessions.length : Int) ≤ i) → s.Get i = some Session.zero) ∧
    ((0 ≤ i ∧ i < (s.sessions.length : Int)) → s.Get i = s.sessions[i.toNat]? ∧
      (s.Get i).isSome = true) ∧
    (i < -1 → s.Get i = none) := by
  unfold SessionModel.Get sliceIndex
  refine ⟨fun hi => by rw [if_pos hi], ?_, ?_⟩
  · intro hi
    have h1 : ¬ (i = -1 ∨ i ≥ (s.sessions.length : Int)) := by omega
    have h2 : ¬ (i < 0) := by omega
    have h3 : i.toNat < s.sessions.length := by omega
    simp only [h1, h2, if_false, true_and]
    rw [List.getElem?_eq_getElem h3]
    rfl
  · intro hi
    have h1 : ¬ (i = -1 ∨ i ≥ (s.sessions.length : Int)) := by omega
    have h2 : i < 0 := by omega
    simp only [h1, h2, if_false, if_true]

theorem mergeKeyCond_congr {message1 message2 : Message} {group1 group2 : Option Group}
    (hkey : SameMergeKey message1 group1 message2 group2) :
    mergeKeyCond message2 group2 = mergeKeyCond message1 group1 := by
  cases group1 <;> cases group2 <;> simp only [SameMergeKey] at hkey
  · simp only [mergeKeyCond, hkey]
  · simp only [mergeKeyCond, hkey]

theorem ids_replace (rows : List SessionRow) (row : SessionRow) (k : Int) (hk : row.id = k) :
    (rows.map (fun x => if x.id = k then row else x)).map (fun r => r.id)
      = rows.map (fun r => r.id) := by
  rw [List.map_map]
  apply List.map_congr_left
  intro r _
  by_cases hr : r.id = k
  · simp [hr, hk]
  · simp [hr]

/-- C1, as stated, fails: on the empty store the first `Add` for source "a"
inserts row 1 but, its last-insert-id retrieval failing, returns a session
with id 0; the second `Add` for the same source finds row 1, rewrites it and
returns id 1. -/
theorem Add_same_key_id_counterexample :
    ∃ sess1 m1 db1 sess2 m2 db2,
      SessionModel.Add ⟨[], []⟩ ⟨"a", "hi", 5, false, false, false, 0⟩ none true
        ⟨none, ⟨none, 0, some 0, id⟩, none⟩ = (.ok sess1, m1, db1) ∧
      SessionModel.Add db1 ⟨"a", "again", 6, false, false, false, 0⟩ none true
        ⟨none, ⟨none, 0, none, id⟩, none⟩ = (.ok sess2, m2, db2) ∧
      sess1.ID = 0 ∧ sess2.ID = 1 ∧ sess2.ID ≠ sess1.ID ∧
      db2.session.length = db1.session.length :=
  ⟨_, _, _, _, _, _, rfl, rfl, rfl, rfl, by decide, rfl⟩

/-- C1, amended: on a store whose row ids are positive and ascending along the
scan (as in every store these operations build), two successive successful
calls of `SessionModel.Add` with the same merge key write the same row.  The
first call stores the columns of the session it returns at a positive rowid,
in the place of the row that had this rowid or as a new row when the key
matched none, and that row is then the row of the key.  The second call
changes the session table only by storing the columns of the session it
returns in that same row: the number of rows and their ids are unchanged and
ids stay unique.  Each call returns the id its last-insert-id retrieval
yields for that rowid, so when the retrieval succeeds in both calls the
second call returns the same, positive, id as the first. -/
theorem Add_same_key_reuses_row (db : DB) (message1 message2 : Message)
    (group1 group2 : Option Group) (unread1 unread2 : Bool) (env1 env2 : AddEnv)
    (sess1 sess2 : Session) (m1 m2 : Message) (db1 db2 : DB)
    (hwf : db.WF) (hkey : SameMergeKey message1 group1 message2 group2)
    (h1 : SessionModel.Add db message1 group1 unread1 env1 = (.ok sess1, m1, db1))
    (h2 : SessionModel.Add db1 message2 group2 unread2 env2 = (.ok sess2, m2, db2)) :
    ∃ rowid row1 row2,
      0 < rowid ∧
      row1 = storeRow env1.save.realText (bindSession sess1 rowid) ∧
      row2 = storeRow env2.save.realText (bindSession sess2 rowid) ∧
      (((∃ r ∈ db.session, r.id = rowid) ∧
          db1.session = db.session.map (fun r => if r.id = rowid then row1 else r)) ∨
       ((∀ r ∈ db.session, r.id ≠ rowid) ∧
          db1.session = List.orderedInsert rowidLe row1 db.session)) ∧
      db1.session.find? (mergeKeyCond message1 group1) = some row1 ∧
      db2.session = db1.session.map (fun r => if r.id = rowid then row2 else r) ∧
      db2.session.find? (mergeKeyCond message2 group2) = some row2 ∧
      db2.session.length = db1.session.length ∧
      db2.session.map (fun r => r.id) = db1.session.map (fun r => r.id) ∧
      db1.WF ∧ db2.WF ∧
      sess1.ID = env1.save.lastInsertId rowid ∧ sess2.ID = env2.save.lastInsertId rowid ∧
      (env1.save.lastIdFail = none → env2.save.lastIdFail = none →
        sess2.ID = sess1.ID ∧ 0 < sess2.ID) := by
  obtain ⟨hwf1, row1, hfind1, hpos1, hid1, hrow1, hcase1⟩ := Add_ok_key hwf h1
  obtain ⟨hwf2, row2, hfind2, _, hid2, hrow2, hcase2⟩ := Add_ok_key hwf1 h2
  rw [mergeKeyCond_congr hkey, hfind1] at hcase2
  rcases hcase2 with ⟨r, hr, hrow, hmap⟩ | ⟨hnone, _⟩
  · simp only [Option.some.injEq] at hr
    subst hr
    rw [hrow] at hrow2 hid2
    refine ⟨row1.id, row1, row2, hpos1, hrow1, hrow2, ?_, hfind1, hmap, hfind2, ?_, ?_, hwf1,
      hwf2, hid1, hid2, ?_⟩
    · rcases hcase1 with ⟨r0, hr0, hr0id, hmap1⟩ | ⟨_, hfresh, hins⟩
      · left
        refine ⟨⟨r0, List.mem_of_find?_eq_some hr0, hr0id.symm⟩, ?_⟩
        rw [hmap1, hr0id]
      · right
        exact ⟨hfresh, hins⟩
    · rw [hmap, List.length_map]
    · rw [hmap]
      exact ids_replace db1.session row2 row1.id hrow
    · intro hl1 hl2
      rw [hid2, hid1]
      simp only [SaveEnv.lastInsertId, hl1, hl2]
      exact ⟨trivial, hpos1⟩
  · simp at hnone

theorem Add_same_key_reuses_row_witness :
    ∃ sess1 m1 db1 sess2 m2 db2,
      SessionModel.Add ⟨[⟨3, "x", "old", 1, false, false, false, false, "", "", "", false⟩], []⟩
        ⟨"a", "hi", 5, false, false, false, 0⟩ (some ⟨"g1", 0, "G", ["a", "b"]⟩) true
        ⟨none, ⟨none, 0, none, id⟩, none⟩ = (.ok sess1, m1, db1) ∧
      SessionModel.Add db1 ⟨"b", "again", 6, false, false, false, 0⟩
        (some ⟨"g1", 0, "G", ["a", "b", "c"]⟩) false
        ⟨none, ⟨none, 0, none, id⟩, none⟩ = (.ok sess2, m2, db2) ∧
      ∃ rowid row1 row2,
        0 < rowid ∧
        row1 = storeRow id (bindSession sess1 rowid) ∧
        row2 = storeRow id (bindSession sess2 rowid) ∧
        (((∃ r ∈ [(⟨3, "x", "old", 1, false, false, false, false, "", "", "", false⟩ :
              SessionRow)], r.id = rowid) ∧
            db1.session = [(⟨3, "x", "old", 1, false, false, false, false, "", "", "", false⟩ :
              SessionRow)].map (fun r => if r.id = rowid then row1 else r)) ∨
         ((∀ r ∈ [(⟨3, "x", "old", 1, false, false, false, false, "", "", "", false⟩ :
              SessionRow)], r.id ≠ rowid) ∧
            db1.session = List.orderedInsert rowidLe row1
              [⟨3, "x", "old", 1, false, false, false, false, "", "", "", false⟩])) ∧
        db1.session.find? (fun r => r.group_id == "g1") = some row1 ∧
        db2.session = db1.session.map (fun r => if r.id = rowid then row2 else r) ∧
        db2.session.find? (fun r => r.group_id == "g1") = some row2 ∧
        db2.session.length = db1.session.length ∧
        db2.session.map (fun r => r.id) = db1.session.map (fun r => r.id) ∧
        db1.WF ∧ db2.WF ∧
        sess1.ID = rowid ∧ sess2.ID = rowid ∧
        ((none : Option Int) = none → (none : Option Int) = none →
          sess2.ID = sess1.ID ∧ 0 < sess2.ID) :=
  ⟨_, _, _, _, _, _, rfl, rfl, Add_same_key_reuses_row
    ⟨[⟨3, "x", "old", 1, false, false, false, false, "", "", "", false⟩], []⟩
    ⟨"a", "hi", 5, false, false, false, 0⟩ ⟨"b", "again", 6, false, false, false, 0⟩
    (some ⟨"g1", 0, "G", ["a", "b"]⟩) (some ⟨"g1", 0, "G", ["a", "b", "c"]⟩) true false
    ⟨none, ⟨none, 0, none, id⟩, none⟩ ⟨none, ⟨none, 0, none, id⟩, none⟩ _ _ _ _ _ _
    (by decide) rfl rfl rfl⟩

/-- C2, as stated, fails: on the empty store a successful `Add` for the unseen
source "a" inserts row 1 but, its last-insert-id retrieval failing, returns a
session whose id is 0. -/
theorem Add_new_source_id_counterexample :
    ∃ sess message1 db1,
      SessionModel.Add ⟨[], []⟩ ⟨"a", "hi", 5, false, false, false, 0⟩ none true
        ⟨none, ⟨none, 0, some 0, id⟩, none⟩ = (.ok sess, message1, db1) ∧
      db1.session = [⟨1, "a", "hi", 5, false, false, true, false, "", "", "", false⟩] ∧
      ¬ 0 < sess.ID :=
  ⟨_, _, _, rfl, rfl, by decide⟩

/-- C2, amended: on a store whose row ids are positive and ascending along the
scan and in which no session row has the source of the message, a successful
`SessionModel.Add` without a group inserts exactly one row: the new table is
the old one with one new row of that source and of a positive, unused id
(taking the row out gives the old table back), and when last-insert-id
retrieval succeeds the returned session's id is that row's id, greater than
0. -/
theorem Add_new_source_inserts (db : DB) (message : Message) (unread : Bool) (env : AddEnv)
    (sess : Session) (message1 : Message) (db1 : DB)
    (hwf : db.WF) (hnew : ∀ r ∈ db.session, r.source ≠ message.Source)
    (h : SessionModel.Add db message none unread env = (.ok sess, message1, db1)) :
    ∃ row, row.source = message.Source ∧ 0 < row.id ∧ (∀ r ∈ db.session, r.id ≠ row.id) ∧
      db1.session.Perm (row :: db.session) ∧ db1.session.erase row = db.session ∧
      db1.session.length = db.session.length + 1 ∧
      (env.save.lastIdFail = none → sess.ID = row.id ∧ 0 < sess.ID) := by
  obtain ⟨_, row, hfind, hpos, hid, _, hcase⟩ := Add_ok_key hwf h
  have hsrc : row.source = message.Source := by
    have := List.find?_some hfind
    simpa [mergeKeyCond] using this
  rcases hcase with ⟨r, hr, _, _⟩ | ⟨_, hfresh, hins⟩
  · have hmem := List.mem_of_find?_eq_some hr
    have := List.find?_some hr
    exact absurd (by simpa [mergeKeyCond] using this) (hnew r hmem)
  · have hnotin : row ∉ db.session := fun hin => hfresh row hin rfl
    refine ⟨row, hsrc, hpos, hfresh, ?_, ?_, ?_, ?_⟩
    · rw [hins]; exact List.perm_orderedInsert rowidLe row db.session
    · rw [hins]; exact List.erase_orderedInsert_of_not_mem hnotin
    · rw [hins]; exact List.orderedInsert_length rowidLe db.session row
    · intro hl
      rw [hid]
      simp only [SaveEnv.lastInsertId, hl]
      exact ⟨trivial, hpos⟩

theorem Add_new_source_inserts_witness :
    ∃ sess message1 db1,
      SessionModel.Add ⟨[⟨3, "x", "old", 1, false, false, false, false, "", "", "", false⟩], []⟩
        ⟨"a", "hi", 5, false, false, false, 0⟩ none true
        ⟨none, ⟨none, 0, none, id⟩, none⟩ = (.ok sess, message1, db1) ∧
      ∃ row, row.source = "a" ∧ 0 < row.id ∧
        (∀ r ∈ [(⟨3, "x", "old", 1, false, false, false, false, "", "", "", false⟩ : SessionRow)],
          r.id ≠ row.id) ∧
        db1.session.Perm
          [row, ⟨3, "x", "old", 1, false, false, false, false, "", "", "", false⟩] ∧
        db1.session.erase row
          = [⟨3, "x", "old", 1, false, false, false, false, "", "", "", false⟩] ∧
        db1.session.length = 1 + 1 ∧
        ((none : Option Int) = none → sess.ID = row.id ∧ 0 < sess.ID) :=
  ⟨_, _, _, rfl, Add_new_source_inserts
    ⟨[⟨3, "x", "old", 1, false, false, false, false, "", "", "", false⟩], []⟩
    ⟨"a", "hi", 5, false, false, false, 0⟩ true ⟨none, ⟨none, 0, none, id⟩, none⟩ _ _ _
    (by decide) (by decide) rfl⟩

/-- C10 fails when `res.LastInsertId()` fails: saving the session with id 5
over its row succeeds, and leaves the session argument with id 0, the value
the failed call returned. -/
theorem SaveSession_clobbers_id :
    SaveSession ⟨[⟨5, "a", "old", 1, false, false, false, false, "", "", "", false⟩], []⟩
      ⟨5, "a", "", false, "", "", "", "new", "", 9, true, false, false, false, [], 0⟩
      ⟨none, 0, some 0, id⟩
    = (.ok (),
       ⟨0, "a", "", false, "", "", "", "new", "", 9, true, false, false, false, [], 0⟩,
       ⟨[⟨5, "a", "new", 9, false, false, true, false, "", "", "", false⟩], []⟩) := rfl

/-- The part of C10 the code keeps: on a well-formed table, while
`res.LastInsertId()` succeeds, a successful `SaveSession` of a session with a
positive id returns the session unchanged, and the table afterwards holds
the session's columns in the row of that id, every other row being as
before. -/
theorem SaveSession_keeps_id (db : DB) (session : Session) (env : SaveEnv)
    (session1 : Session) (db1 : DB) (hwf : db.WF) (hid : 0 < session.ID)
    (hlid : env.lastIdFail = none)
    (h : SaveSession db session env = (.ok (), session1, db1)) :
    session1 = session ∧ db1.message = db.message ∧
    ((∃ r ∈ db.session, r.id = session.ID) →
      db1.session = db.session.map
        (fun r => if r.id = session.ID then
          storeRow env.realText (bindSession session session.ID) else r)) ∧
    ((∀ r ∈ db.session, r.id ≠ session.ID) →
      db1.session.Perm
        (storeRow env.realText (bindSession session session.ID) :: db.session)) := by
  obtain ⟨rowid, _, hs, hm, _, hrow, htab⟩ := SaveSession_ok_table hwf h
  have hrowid := hrow hid
  subst hrowid
  refine ⟨?_, hm, ?_, ?_⟩
  · rw [hs]
    simp only [SaveEnv.lastInsertId, hlid]
  · intro hmem
    rcases htab with ⟨_, _, hmap⟩ | ⟨hfresh, _⟩
    · exact hmap
    · obtain ⟨r, hr, hrid⟩ := hmem
      exact absurd hrid (hfresh r hr)
  · intro hfresh
    rcases htab with ⟨⟨r, hr, hrid⟩, _, _⟩ | ⟨_, hins⟩
    · exact absurd hrid (hfresh r hr)
    · rw [hins]; exact List.perm_orderedInsert rowidLe _ db.session

theorem SaveSession_keeps_id_witness :
    ∃ session1 db1,
      SaveSession ⟨[⟨5, "a", "old", 1, false, false, false, false, "", "", "", false⟩], []⟩
        ⟨5, "a", "", false, "", "", "", "new", "", 9, true, false, false, false, [], 0⟩
        ⟨none, 0, none, id⟩ = (.ok (), session1, db1) ∧
      session1.ID = 5 :=
  have h := SaveSession_keeps_id
    ⟨[⟨5, "a", "old", 1, false, false, false, false, "", "", "", false⟩], []⟩
    ⟨5, "a", "", false, "", "", "", "new", "", 9, true, false, false, false, [], 0⟩
    ⟨none, 0, none, id⟩ _ _ (by decide) (by decide) rfl rfl
  ⟨_, _, rfl, by rw [h.1]⟩

end Whisperfish
